import Mathlib

/-!
Shallow embedding of the retrieval and indexing core of the DocuMind
repository: `src/vector_store.py` (store_documents, search_similar_chunks,
clear_collection, get_collection_count) and `src/document_processor.py`
(get_document_stats).

Modelling conventions:
- Embedding vectors are lists of real numbers; floating point arithmetic is
  idealised as real arithmetic.
- The on-disk state of the `./faiss_index` directory is an
  `Option Collection`: `none` means the directory (and hence all three
  artifact files) is absent, `some c` means all three artifacts are present
  and hold the three parallel structures written by `store_documents`.
- The Gemini embedding calls are parameters: a document-mode embedder of
  type `String → Except String (List ℝ)` (an `Except.error` models a raised
  exception from the network call) and a query-mode embedder
  `String → List ℝ`.
- FAISS library behaviour that the Python code relies on is embedded
  explicitly: `faiss.normalize_L2` (fvec_renorm_L2) divides each vector by
  its Euclidean norm, leaving a vector with zero squared norm unchanged;
  `IndexFlatIP.search` with `n` requested results returns the top `n`
  stored ids by descending inner product with ties broken by lowest id,
  padding with id `-1` when `n` exceeds the number of stored vectors.
-/

namespace DocuMind

/-- Configuration constant `TOP_K_RESULTS` from `config.py`. -/
def TOP_K_RESULTS : Nat := 5

/-- Configuration constant `CHUNK_SIZE` from `config.py`. -/
def CHUNK_SIZE : Nat := 1000

/-- Configuration constant `CHUNK_OVERLAP` from `config.py`. -/
def CHUNK_OVERLAP : Nat := 200

/-- A document chunk as consumed by `store_documents` and
`get_document_stats`: its `page_content` plus the two metadata fields the
code reads with `chunk.metadata.get(...)` (`none` models an absent key). -/
structure Chunk where
  page_content : String
  source : Option String
  page : Option String
deriving Repr, DecidableEq

/-- One metadata record as built in the loop of `store_documents`:
`{"source": ..., "page": ..., "chunk_index": str(i)}`, all strings. -/
structure ChunkMeta where
  source : String
  page : String
  chunk_index : String
deriving Repr, DecidableEq

/-- The three parallel structures persisted in `./faiss_index`: the FAISS
index (its stored vectors, in insertion order), `texts.pkl` and
`metadata.json`. -/
structure Collection where
  vectors : List (List ℝ)
  texts : List String
  metadatas : List ChunkMeta

/-- On-disk state: `none` when `./faiss_index` does not exist. -/
abbrev DiskState := Option Collection

/-- Sum of squares of the entries of a vector (the squared L2 norm computed
by `fvec_norm_L2sqr` inside `faiss.normalize_L2`). -/
def sumSq (v : List ℝ) : ℝ := (v.map fun x => x * x).sum

/-- Embeds `faiss.normalize_L2` on one vector: divide by the Euclidean norm;
the FAISS implementation guards `if (nr > 0)`, so a vector of zero squared
norm is left unchanged. -/
noncomputable def normalizeL2 (v : List ℝ) : List ℝ :=
  if sumSq v = 0 then v else v.map fun x => x / Real.sqrt (sumSq v)

/-- The metadata record built for chunk `c` at enumeration index `i` in the
loop of `store_documents`. -/
def metaOfChunk (i : Nat) (c : Chunk) : ChunkMeta :=
  { source := c.source.getD "unknown"
    page := c.page.getD "unknown"
    chunk_index := toString i }

/-- The metadata list built by the `for i, chunk in enumerate(chunks)` loop,
starting at enumeration index `i`. -/
def metadatasFrom (i : Nat) : List Chunk → List ChunkMeta
  | [] => []
  | c :: cs => metaOfChunk i c :: metadatasFrom (i + 1) cs

/-- The full metadata list built by `store_documents` for `chunks`. -/
def metadatasOf (chunks : List Chunk) : List ChunkMeta := metadatasFrom 0 chunks

/-- The embedding loop of `store_documents`: call `get_embedding` on each
chunk text in order; the first raised exception propagates. -/
def embedAll (emb : String → Except String (List ℝ)) :
    List Chunk → Except String (List (List ℝ))
  | [] => Except.ok []
  | c :: cs =>
    match emb c.page_content with
    | Except.error e => Except.error e
    | Except.ok v =>
      match embedAll emb cs with
      | Except.error e => Except.error e
      | Except.ok vs => Except.ok (v :: vs)

/-- Embeds `store_documents(chunks)` acting on disk state `st` with
document embedder `emb`. The code embeds every chunk first (a failure there
propagates before anything is written), then evaluates
`dimension = len(embeddings[0])`, which raises `IndexError` when the chunk
list is empty, then builds a fresh `IndexFlatIP`, L2-normalizes the vectors,
adds them, and overwrites all three on-disk artifacts. The previous disk
state is never read: a successful call replaces it wholesale. Returns
`len(chunks)` on success. -/
noncomputable def storeDocuments (emb : String → Except String (List ℝ))
    (chunks : List Chunk) (_st : DiskState) : Except String (DiskState × Nat) :=
  match embedAll emb chunks with
  | Except.error e => Except.error e
  | Except.ok embeddings =>
    match embeddings with
    | [] => Except.error "IndexError: list index out of range"
    | v :: vs =>
      Except.ok
        (some { vectors := (v :: vs).map normalizeL2
                texts := chunks.map fun c => c.page_content
                metadatas := metadatasOf chunks },
         chunks.length)

/-- The disk state after a `store_documents` call: on success the freshly
written state, on a raised exception the previous state (the writes at the
end of the function were never reached). -/
noncomputable def durableAfterStore (emb : String → Except String (List ℝ))
    (chunks : List Chunk) (st : DiskState) : DiskState :=
  match storeDocuments emb chunks st with
  | Except.ok (st2, _) => st2
  | Except.error _ => st

/-- Embeds `clear_collection()`: `shutil.rmtree("./faiss_index")` if the
directory exists, so the resulting disk state is always absent. -/
def clearCollection (_st : DiskState) : DiskState := none

/-- Embeds `get_collection_count()`: 0 when `texts.pkl` does not exist,
otherwise the length of the pickled text list. -/
def getCollectionCount : DiskState → Nat
  | none => 0
  | some s => s.texts.length

/-- The texts side-table visible on disk (empty when nothing persisted). -/
def stateTexts : DiskState → List String
  | none => []
  | some s => s.texts

/-- The metadata side-table visible on disk. -/
def stateMetadatas : DiskState → List ChunkMeta
  | none => []
  | some s => s.metadatas

/-- The stored vectors visible on disk. -/
def stateVectors : DiskState → List (List ℝ)
  | none => []
  | some s => s.vectors

/-- Inner product of two vectors (`IndexFlatIP` similarity). -/
def dot (u v : List ℝ) : ℝ := (List.zipWith (· * ·) u v).sum

/-- The score list computed by `index.search`: the inner product of the
(already normalized) query vector with each stored vector, in storage
order. -/
def scoresOf (vecs : List (List ℝ)) (qn : List ℝ) : List ℝ :=
  vecs.map fun v => dot qn v

/-- The score list used in `search_similar_chunks`: the query embedding is
L2-normalized by `faiss.normalize_L2` before the index is searched. -/
noncomputable def queryScores (vecs : List (List ℝ)) (q : List ℝ) : List ℝ :=
  scoresOf vecs (normalizeL2 q)

/-- Ranking relation of `IndexFlatIP.search` on stored ids: higher score
first, exact ties broken by lower id. -/
def rankRel (scores : List ℝ) (i j : Nat) : Prop :=
  scores.getD j 0 < scores.getD i 0 ∨
    (scores.getD i 0 = scores.getD j 0 ∧ i ≤ j)

noncomputable instance rankRelDec (scores : List ℝ) : DecidableRel (rankRel scores) :=
  fun _ _ => Classical.propDecidable _

/-- All stored ids, ranked by descending score with ties broken by lowest
id: the full ranking from which `IndexFlatIP.search` reports its top
results. -/
noncomputable def rankedIndices (scores : List ℝ) : List Nat :=
  List.insertionSort (rankRel scores) (List.range scores.length)

/-- The id rows returned by `index.search(query, n)`: the best `n` stored
ids in rank order, padded with `-1` when `n` exceeds the number of stored
vectors. -/
noncomputable def faissSearchIds (scores : List ℝ) (n : Nat) : List Int :=
  ((rankedIndices scores).map Int.ofNat ++ List.replicate n (-1)).take n

/-- A search result dict as built by `search_similar_chunks`. -/
structure SearchResult where
  text : String
  metadata : ChunkMeta
  similarity_score : ℝ

/-- The result dict built for stored id `i`: the side-tables are joined by
ordinal position. -/
def entryOf (s : Collection) (scores : List ℝ) (i : Nat) : SearchResult :=
  { text := s.texts.getD i ""
    metadata := s.metadatas.getD i ⟨"", "", ""⟩
    similarity_score := scores.getD i 0 }

/-- The body of `search_similar_chunks` once the index artifacts exist:
`n = min(n_results, len(texts))`, `index.search(query_embedding, n)`, and
one result dict per returned id that is not `-1`. -/
noncomputable def searchEntries (s : Collection) (q : List ℝ) (k : Nat) :
    List SearchResult :=
  (faissSearchIds (queryScores s.vectors q) (min k s.texts.length)).filterMap
    fun idx =>
      if idx = -1 then none
      else some (entryOf s (queryScores s.vectors q) idx.toNat)

/-- Embeds `search_similar_chunks(query, n_results)`: when
`./faiss_index/index.faiss` does not exist it returns `[]` before doing
anything else (in particular before any embedding call); otherwise it loads
the three artifacts, embeds the query with `embQ`, normalizes it and
searches. -/
noncomputable def searchSimilarChunks (embQ : String → List ℝ) (query : String)
    (k : Nat) : DiskState → List SearchResult
  | none => []
  | some s => searchEntries s (embQ query) k

/-- Disk states reachable from a fresh checkout (no `./faiss_index`) by
completed `store_documents` and `clear_collection` calls. A store call that
raises leaves the disk state unchanged, so failed calls add no new states. -/
inductive Reachable : DiskState → Prop where
  | init : Reachable none
  | store {emb : String → Except String (List ℝ)} {chunks : List Chunk}
      {st st2 : DiskState} {n : Nat} : Reachable st →
      storeDocuments emb chunks st = Except.ok (st2, n) → Reachable st2
  | clear {st : DiskState} : Reachable st → Reachable (clearCollection st)

/-- The central lock-step invariant: the index and the two side-tables have
the same length. Vacuously true when nothing is persisted. -/
def consistent : DiskState → Prop
  | none => True
  | some s => s.vectors.length = s.texts.length ∧
      s.texts.length = s.metadatas.length

/-- The result record of `get_document_stats`. -/
structure DocumentStats where
  total_chunks : Nat
  total_characters : Nat
  avg_chunk_size : Nat
deriving Repr, DecidableEq

/-- Embeds `get_document_stats(chunks)` from `document_processor.py`:
`total_chunks = len(chunks)`,
`total_characters = sum(len(chunk.page_content) for chunk in chunks)`,
`avg_chunk_size = total_characters // total_chunks if total_chunks > 0 else 0`
(Python floor division on non-negative integers). -/
def getDocumentStats (chunks : List Chunk) : DocumentStats :=
  let total_chunks := chunks.length
  let total_characters := (chunks.map fun c => c.page_content.length).sum
  { total_chunks := total_chunks
    total_characters := total_characters
    avg_chunk_size := if total_chunks > 0 then total_characters / total_chunks else 0 }

/-! ### Concrete fixtures used in witnesses and counterexamples -/

/-- A sample chunk. -/
def chunkA : Chunk := { page_content := "alpha", source := some "doc.txt", page := none }

/-- A sample chunk used to exercise a second store call. -/
def chunkNew : Chunk := { page_content := "new", source := some "n.txt", page := some "2" }

/-- An embedder that always succeeds with the fixed vector `v`. -/
def embConst (v : List ℝ) : String → Except String (List ℝ) := fun _ => Except.ok v

/-- An embedder whose network call always raises. -/
def embFail : String → Except String (List ℝ) := fun _ => Except.error "boom"

/-- A query embedder returning a fixed one-dimensional vector. -/
def embQ1 : String → List ℝ := fun _ => [(1 : ℝ)]

/-- The collection written by storing `[chunkA]` on any previous state. -/
noncomputable def exampleStored : Collection :=
  { vectors := [normalizeL2 [(1 : ℝ)]]
    texts := ["alpha"]
    metadatas := [metaOfChunk 0 chunkA] }

/-- A pre-existing one-entry collection. -/
def oldState : Collection :=
  { vectors := [[(1 : ℝ)]], texts := ["old"], metadatas := [⟨"o.txt", "1", "0"⟩] }

/-- The collection written by storing `[chunkNew]` on any previous state. -/
noncomputable def newStored : Collection :=
  { vectors := [normalizeL2 [(1 : ℝ)]]
    texts := ["new"]
    metadatas := [metaOfChunk 0 chunkNew] }

/-- A one-entry collection with unit vector, for search witnesses. -/
def s1 : Collection :=
  { vectors := [[(1 : ℝ)]], texts := ["a"], metadatas := [⟨"a.txt", "1", "0"⟩] }

/-! ### Helper lemmas -/

lemma storeExample :
    storeDocuments (embConst [(1 : ℝ)]) [chunkA] none =
      Except.ok (some exampleStored, 1) := rfl

lemma embedExample :
    embedAll (embConst [(1 : ℝ)]) [chunkA] = Except.ok [[(1 : ℝ)]] := rfl

lemma storeNewExample :
    storeDocuments (embConst [(1 : ℝ)]) [chunkNew] (some oldState) =
      Except.ok (some newStored, 1) := rfl

lemma metadatasFrom_length (i : Nat) (chunks : List Chunk) :
    (metadatasFrom i chunks).length = chunks.length := by
  induction chunks generalizing i with
  | nil => rfl
  | cons c cs ih => simp [metadatasFrom, ih]

lemma metadatasOf_length (chunks : List Chunk) :
    (metadatasOf chunks).length = chunks.length :=
  metadatasFrom_length 0 chunks

lemma embedAll_ok_length {emb : String → Except String (List ℝ)}
    {chunks : List Chunk} {vs : List (List ℝ)}
    (h : embedAll emb chunks = Except.ok vs) : vs.length = chunks.length := by
  induction chunks generalizing vs with
  | nil => simp [embedAll] at h; simp [← h]
  | cons c cs ih =>
    unfold embedAll at h
    cases he : emb c.page_content with
    | error e => rw [he] at h; exact absurd h (by simp)
    | ok v =>
      rw [he] at h
      cases hr : embedAll emb cs with
      | error e => rw [hr] at h; exact absurd h (by simp)
      | ok ws =>
        rw [hr] at h
        cases h
        simp [ih hr]

lemma embedAll_error_of_mem {emb : String → Except String (List ℝ)}
    {chunks : List Chunk} {c : Chunk} {e : String}
    (hc : c ∈ chunks) (he : emb c.page_content = Except.error e) :
    ∃ e2, embedAll emb chunks = Except.error e2 := by
  induction chunks with
  | nil => cases hc
  | cons d ds ih =>
    unfold embedAll
    rcases List.mem_cons.mp hc with rfl | hmem
    · exact ⟨e, by rw [he]⟩
    · cases hd : emb d.page_content with
      | error e2 => exact ⟨e2, rfl⟩
      | ok v =>
        rcases ih hmem with ⟨e2, hr⟩
        exact ⟨e2, by rw [hr]⟩

/-- Shape of a successful `store_documents` call: the chunks embedded
without error, the chunk list was non-empty, and the on-disk state was
replaced by the freshly built triple. -/
lemma storeDocuments_ok {emb : String → Except String (List ℝ)}
    {chunks : List Chunk} {st st2 : DiskState} {n : Nat}
    (h : storeDocuments emb chunks st = Except.ok (st2, n)) :
    ∃ vs, embedAll emb chunks = Except.ok vs ∧ vs ≠ [] ∧
      st2 = some { vectors := vs.map normalizeL2
                   texts := chunks.map fun c => c.page_content
                   metadatas := metadatasOf chunks } ∧
      n = chunks.length := by
  unfold storeDocuments at h
  cases hv : embedAll emb chunks with
  | error e => rw [hv] at h; exact absurd h (by simp)
  | ok vs =>
    rw [hv] at h
    cases vs with
    | nil => exact absurd h (by simp)
    | cons v ws =>
      refine ⟨v :: ws, rfl, by simp, ?_, ?_⟩
      · cases h; rfl
      · cases h; rfl

lemma storeDocuments_error_of_embed_error
    {emb : String → Except String (List ℝ)} {chunks : List Chunk}
    {st : DiskState} {e : String} (h : embedAll emb chunks = Except.error e) :
    storeDocuments emb chunks st = Except.error e := by
  unfold storeDocuments
  rw [h]

instance rankRelTotal (scores : List ℝ) : IsTotal Nat (rankRel scores) := by
  constructor
  intro i j
  rcases lt_trichotomy (scores.getD i 0) (scores.getD j 0) with hlt | heq | hgt
  · exact Or.inr (Or.inl hlt)
  · rcases Nat.le_total i j with hij | hji
    · exact Or.inl (Or.inr ⟨heq, hij⟩)
    · exact Or.inr (Or.inr ⟨heq.symm, hji⟩)
  · exact Or.inl (Or.inl hgt)

instance rankRelTrans (scores : List ℝ) : IsTrans Nat (rankRel scores) := by
  constructor
  intro i j l hij hjl
  rcases hij with hij | ⟨hije, hijle⟩
  · rcases hjl with hjl | ⟨hjle, _⟩
    · exact Or.inl (lt_trans hjl hij)
    · exact Or.inl (hjle ▸ hij)
  · rcases hjl with hjl | ⟨hjle, hjlle⟩
    · exact Or.inl (hije ▸ hjl)
    · exact Or.inr ⟨hije.trans hjle, le_trans hijle hjlle⟩

lemma rankedIndices_perm (scores : List ℝ) :
    (rankedIndices scores).Perm (List.range scores.length) :=
  List.perm_insertionSort _ _

lemma rankedIndices_length (scores : List ℝ) :
    (rankedIndices scores).length = scores.length := by
  rw [(rankedIndices_perm scores).length_eq, List.length_range]

lemma rankedIndices_sorted (scores : List ℝ) :
    (rankedIndices scores).Sorted (rankRel scores) :=
  List.sorted_insertionSort _ _

lemma rankedIndices_nodup (scores : List ℝ) :
    (rankedIndices scores).Nodup :=
  (rankedIndices_perm scores).nodup_iff.mpr (List.nodup_range _)

lemma pairwise_and_of {α : Type} {R S : α → α → Prop} :
    ∀ {l : List α}, l.Pairwise R → l.Pairwise S →
      l.Pairwise fun a b => R a b ∧ S a b
  | [], _, _ => List.Pairwise.nil
  | _ :: _, .cons hR tR, .cons hS tS =>
    .cons (fun b hb => ⟨hR b hb, hS b hb⟩) (pairwise_and_of tR tS)

/-- The full ranking is strictly ordered: for any earlier id `i` and later
id `j`, either `i` scored strictly higher, or they scored exactly the same
and `i` is the smaller id. -/
lemma rankedIndices_pairwise_strict (scores : List ℝ) :
    (rankedIndices scores).Pairwise fun i j =>
      scores.getD j 0 < scores.getD i 0 ∨
        (scores.getD i 0 = scores.getD j 0 ∧ i < j) := by
  have hand := pairwise_and_of (rankedIndices_sorted scores)
    (rankedIndices_nodup scores)
  refine hand.imp ?_
  rintro i j ⟨hij | ⟨heq, hle⟩, hne⟩
  · exact Or.inl hij
  · exact Or.inr ⟨heq, lt_of_le_of_ne hle hne⟩

lemma filterMap_map_of_eq_some {α β γ : Type} (l : List α) (f : α → β)
    (F : β → Option γ) (g : α → γ) (hF : ∀ a, F (f a) = some (g a)) :
    (l.map f).filterMap F = l.map g := by
  induction l with
  | nil => rfl
  | cons a l ih => simp [List.filterMap_cons, hF, ih]

/-- Unfolding of the search body when the side-tables are in lock-step with
the index: the returned dicts are exactly the top `min(k, size)` ranked ids
joined against the side-tables, in rank order, with no `-1` padding ever
surviving the filter. -/
lemma searchEntries_eq (s : Collection) (q : List ℝ) (k : Nat)
    (h : s.vectors.length = s.texts.length) :
    searchEntries s q k =
      ((rankedIndices (queryScores s.vectors q)).take (min k s.texts.length)).map
        (entryOf s (queryScores s.vectors q)) := by
  set scores := queryScores s.vectors q with hscores
  have hslen : scores.length = s.vectors.length := by
    rw [hscores]; simp [queryScores, scoresOf]
  have hrlen : (rankedIndices scores).length = s.vectors.length := by
    rw [rankedIndices_length, hslen]
  have hn : min k s.texts.length ≤
      ((rankedIndices scores).map Int.ofNat).length := by
    rw [List.length_map, hrlen, ← h]
    exact min_le_right _ _
  unfold searchEntries faissSearchIds
  rw [← hscores]
  rw [List.take_append_of_le_length hn]
  rw [← List.map_take]
  refine filterMap_map_of_eq_some _ _ _ _ ?_
  intro i
  have hne : Int.ofNat i ≠ -1 := by
    simp only [Int.ofNat_eq_coe]
    omega
  rw [if_neg hne]
  rfl

/-! ### Claim theorems -/

/-- C1: for every disk state reachable by any sequence of completed
store and clear operations, the number of stored vectors in the index, the
number of entries in the texts side-table and the number of entries in the
metadatas side-table are all equal. -/
theorem C1_lockstep_invariant (st : DiskState) (h : Reachable st) :
    consistent st := by
  induction h with
  | init => trivial
  | store hr hok ih =>
    obtain ⟨vs, hv, -, rfl, -⟩ := storeDocuments_ok hok
    refine ⟨?_, ?_⟩
    · rw [List.length_map, List.length_map, embedAll_ok_length hv]
    · rw [List.length_map, metadatasOf_length]
  | clear hr ih => trivial

/-- C1 witness: the state reached by one successful store call from a fresh
checkout is reachable and satisfies the lock-step invariant. -/
theorem C1_lockstep_invariant_witness :
    Reachable (some exampleStored) ∧ consistent (some exampleStored) := by
  have hr : Reachable (some exampleStored) :=
    Reachable.store Reachable.init storeExample
  exact ⟨hr, C1_lockstep_invariant _ hr⟩

/-- C2 counterexample: storing one chunk on top of an existing one-entry
collection does not append; the existing entry `"old"` is removed and the
new entry sits at ordinal position 0, so the collection is not grown. -/
theorem C2_append_counterexample :
    stateTexts (some oldState) = ["old"] ∧
    stateTexts (durableAfterStore (embConst [(1 : ℝ)]) [chunkNew]
      (some oldState)) = ["new"] :=
  ⟨rfl, rfl⟩

/-- C2 (amended): a successful store call replaces the collection wholesale:
the resulting texts and metadata side-tables are exactly those built from
the chunks of this call, in input order at ordinal positions starting from
0; entries existing before the call are removed, and the return value is
the number of chunks of this call. -/
theorem C2_store_replaces (emb : String → Except String (List ℝ))
    (chunks : List Chunk) (st st2 : DiskState) (n : Nat)
    (h : storeDocuments emb chunks st = Except.ok (st2, n)) :
    stateTexts st2 = chunks.map (fun c => c.page_content) ∧
    stateMetadatas st2 = metadatasOf chunks ∧
    n = chunks.length := by
  obtain ⟨vs, -, -, rfl, rfl⟩ := storeDocuments_ok h
  exact ⟨rfl, rfl, rfl⟩

/-- C2 witness: the amended statement applied to storing one concrete chunk
over a concrete pre-existing collection. -/
theorem C2_store_replaces_witness :
    storeDocuments (embConst [(1 : ℝ)]) [chunkNew] (some oldState) =
      Except.ok (some newStored, 1) ∧
    (stateTexts (some newStored) = [chunkNew].map (fun c => c.page_content) ∧
     stateMetadatas (some newStored) = metadatasOf [chunkNew] ∧
     (1 : Nat) = [chunkNew].length) :=
  ⟨storeNewExample, C2_store_replaces _ [chunkNew] _ _ _ storeNewExample⟩

/-- C3: contrary to the claim, `store_documents` on the empty chunk list
does not return 0: the expression `dimension = len(embeddings[0])` raises
`IndexError` because the embeddings list is empty, for any embedder and any
previous disk state. -/
theorem C3_store_empty_raises (emb : String → Except String (List ℝ))
    (st : DiskState) :
    storeDocuments emb [] st =
      Except.error "IndexError: list index out of range" := rfl

/-- C4: on a stored collection whose side-tables are in lock-step, search
returns exactly `min k n` results (`n` the number of stored vectors),
equal to the top-ranked ids joined against the side-tables in rank order;
the full ranking is strictly ordered by descending inner-product score of
the normalized query against the stored vectors with exact ties broken by
lowest ordinal id, and it ranks every stored id; result scores are
descending; and search on an absent index returns `[]`, never an error. -/
theorem C4_search_topk (embQ : String → List ℝ) (query : String) (k : Nat)
    (s : Collection) (h : s.vectors.length = s.texts.length) :
    (searchSimilarChunks embQ query k (some s)).length =
        min k s.vectors.length ∧
    searchSimilarChunks embQ query k (some s) =
      ((rankedIndices (queryScores s.vectors (embQ query))).take
        (min k s.vectors.length)).map
          (entryOf s (queryScores s.vectors (embQ query))) ∧
    (rankedIndices (queryScores s.vectors (embQ query))).Pairwise
      (fun i j =>
        (queryScores s.vectors (embQ query)).getD j 0 <
            (queryScores s.vectors (embQ query)).getD i 0 ∨
          ((queryScores s.vectors (embQ query)).getD i 0 =
              (queryScores s.vectors (embQ query)).getD j 0 ∧ i < j)) ∧
    (rankedIndices (queryScores s.vectors (embQ query))).Perm
      (List.range s.vectors.length) ∧
    (searchSimilarChunks embQ query k (some s)).Pairwise
      (fun a b => b.similarity_score ≤ a.similarity_score) ∧
    ∀ q2 k2, searchSimilarChunks embQ q2 k2 none = [] := by
  set scores := queryScores s.vectors (embQ query) with hsc
  have hslen : scores.length = s.vectors.length := by
    rw [hsc]; simp [queryScores, scoresOf]
  have hrlen : (rankedIndices scores).length = s.vectors.length := by
    rw [rankedIndices_length, hslen]
  have hmin : min k s.texts.length = min k s.vectors.length := by rw [h]
  have hvis : searchSimilarChunks embQ query k (some s) =
      ((rankedIndices scores).take (min k s.texts.length)).map
        (entryOf s scores) :=
    searchEntries_eq s (embQ query) k h
  refine ⟨?_, ?_, ?_, ?_, ?_, fun q2 k2 => rfl⟩
  · rw [hvis, List.length_map, List.length_take, hrlen, hmin]
    exact min_eq_left (min_le_right _ _)
  · rw [hvis, hmin]
  · exact rankedIndices_pairwise_strict scores
  · have hp := rankedIndices_perm scores
    rwa [hslen] at hp
  · rw [hvis]
    refine List.pairwise_map.mpr ?_
    have hp := List.Pairwise.sublist
      (List.take_sublist (min k s.texts.length) (rankedIndices scores))
      (rankedIndices_pairwise_strict scores)
    refine hp.imp ?_
    rintro i j (hlt | ⟨heq2, -⟩)
    · exact le_of_lt hlt
    · exact le_of_eq heq2.symm

/-- C4 witness: the search contract applied to a concrete one-entry
collection with a concrete query and `k = 5`. -/
theorem C4_search_topk_witness :
    s1.vectors.length = s1.texts.length ∧
    (searchSimilarChunks embQ1 "q" 5 (some s1)).length =
      min 5 s1.vectors.length :=
  ⟨rfl, (C4_search_topk embQ1 "q" 5 s1 rfl).1⟩

/-- C5: search on a never-populated collection (no persisted state on
disk) returns the empty list for every query embedder, query string and
`k`; in particular no file-not-found error reaches the caller, since the
function returns before touching any artifact. -/
theorem C5_search_unpopulated (embQ : String → List ℝ) (query : String)
    (k : Nat) : searchSimilarChunks embQ query k none = [] := rfl

/-- C6: if the embedding call raises on any chunk of the batch, the store
call raises as well and the previously persisted durable state is left
untouched; nothing partial is written. -/
theorem C6_store_failure_atomic (emb : String → Except String (List ℝ))
    (chunks : List Chunk) (st : DiskState) (c : Chunk) (e : String)
    (hc : c ∈ chunks) (he : emb c.page_content = Except.error e) :
    durableAfterStore emb chunks st = st ∧
    ∃ e2, storeDocuments emb chunks st = Except.error e2 := by
  obtain ⟨e2, h2⟩ := embedAll_error_of_mem hc he
  have hs := @storeDocuments_error_of_embed_error emb chunks st e2 h2
  constructor
  · unfold durableAfterStore
    rw [hs]
  · exact ⟨e2, hs⟩

/-- C6 witness: a failing embedder over a one-chunk batch leaves a concrete
pre-existing collection untouched. -/
theorem C6_store_failure_atomic_witness :
    chunkA ∈ [chunkA] ∧ embFail chunkA.page_content = Except.error "boom" ∧
    (durableAfterStore embFail [chunkA] (some oldState) = some oldState ∧
     ∃ e2, storeDocuments embFail [chunkA] (some oldState) =
       Except.error e2) :=
  ⟨List.mem_cons_self chunkA [], rfl,
    C6_store_failure_atomic embFail [chunkA] (some oldState) chunkA "boom"
      (List.mem_cons_self chunkA []) rfl⟩

/-- C7: clear is idempotent (clearing twice equals clearing once), clearing
a nonexistent collection is a no-op rather than an error, and the count
after any clear is 0. -/
theorem C7_clear_idempotent (st : DiskState) :
    clearCollection (clearCollection st) = clearCollection st ∧
    clearCollection none = none ∧
    getCollectionCount (clearCollection st) = 0 :=
  ⟨rfl, rfl, rfl⟩

/-- C8: after a successful store, the vectors put into the index are
exactly the L2-normalizations of the embeddings returned for the chunks
(normalization is unconditional; raw vectors are never stored), and
normalizing the all-zero vector of any dimension returns the zero vector
itself rather than failing on division by zero. -/
theorem C8_normalization (emb : String → Except String (List ℝ))
    (chunks : List Chunk) (st st2 : DiskState) (n : Nat)
    (vs : List (List ℝ)) (hv : embedAll emb chunks = Except.ok vs)
    (h : storeDocuments emb chunks st = Except.ok (st2, n)) :
    stateVectors st2 = vs.map normalizeL2 ∧
    ∀ d, normalizeL2 (List.replicate d (0 : ℝ)) = List.replicate d 0 := by
  constructor
  · obtain ⟨ws, hw, -, rfl, -⟩ := storeDocuments_ok h
    rw [hw] at hv
    cases hv
    rfl
  · intro d
    have hz : sumSq (List.replicate d (0 : ℝ)) = 0 := by
      simp [sumSq]
    rw [normalizeL2, if_pos hz]

/-- C8 witness: the normalization contract applied to one concrete store
call. -/
theorem C8_normalization_witness :
    embedAll (embConst [(1 : ℝ)]) [chunkA] = Except.ok [[(1 : ℝ)]] ∧
    storeDocuments (embConst [(1 : ℝ)]) [chunkA] none =
      Except.ok (some exampleStored, 1) ∧
    stateVectors (some exampleStored) = [[(1 : ℝ)]].map normalizeL2 :=
  ⟨embedExample, storeExample,
    (C8_normalization (embConst [(1 : ℝ)]) [chunkA] none
      (some exampleStored) 1 [[(1 : ℝ)]] embedExample storeExample).1⟩

/-- C9: after every successful store call, the persisted count equals the
length of the chunk sequence of that call, regardless of what was persisted
before, because store writes a freshly built index and side-tables over the
previous artifacts. -/
theorem C9_store_overwrites_count (emb : String → Except String (List ℝ))
    (chunks : List Chunk) (st st2 : DiskState) (n : Nat)
    (h : storeDocuments emb chunks st = Except.ok (st2, n)) :
    getCollectionCount st2 = chunks.length ∧ n = chunks.length := by
  obtain ⟨vs, -, -, rfl, rfl⟩ := storeDocuments_ok h
  constructor
  · simp [getCollectionCount]
  · rfl

/-- C9 witness: storing one chunk over a pre-existing one-entry collection
leaves a count of 1 (the new batch size), not 2. -/
theorem C9_store_overwrites_count_witness :
    storeDocuments (embConst [(1 : ℝ)]) [chunkNew] (some oldState) =
      Except.ok (some newStored, 1) ∧
    (getCollectionCount (some newStored) = [chunkNew].length ∧
     (1 : Nat) = [chunkNew].length) :=
  ⟨storeNewExample, C9_store_overwrites_count _ _ _ _ _ storeNewExample⟩

/-- C10: the statistics helper returns the number of chunks, the summed
character count of the chunk texts, and their quotient truncated toward
zero (0 for the empty chunk list). -/
theorem C10_document_stats (chunks : List Chunk) :
    (getDocumentStats chunks).total_chunks = chunks.length ∧
    (getDocumentStats chunks).total_characters =
      (chunks.map fun c => c.page_content.length).sum ∧
    (getDocumentStats chunks).avg_chunk_size =
      (chunks.map fun c => c.page_content.length).sum / chunks.length ∧
    (getDocumentStats []).avg_chunk_size = 0 := by
  refine ⟨rfl, rfl, ?_, rfl⟩
  by_cases hc : chunks.length > 0
  · simp [getDocumentStats, hc]
  · have hz : chunks.length = 0 := Nat.eq_zero_of_not_pos hc
    simp [getDocumentStats, hz]

end DocuMind
